import Mathlib

/-!
Shallow embedding of the sermon-recommendation bot:
`config.py`, `utils.py` (RAGEngine.search, RecommendationEngine.rank_sermons,
CacheManager.get / CacheManager.set), `telegram_bot.py`
(PastorTaraBot._handle_more) and `db_handler.py` (SermonDatabase.add_sermon),
together with theorems settling the specification's claims about them.

Machine floats of the source are embedded as rationals, file contents and
timestamps as explicit data, and the two external effects (the language-model
call and `json.loads` on its reply) as oracle inputs.
-/

set_option maxRecDepth 10000

/-- Configuration constant `MIN_RELEVANCE_SCORE = 0.7` from `config.py`. -/
def MIN_RELEVANCE_SCORE : ℚ := mkRat 7 10

/-- Configuration constant `CACHE_DURATION_HOURS = 6` from `config.py`. -/
def CACHE_DURATION_HOURS : Int := 6

/-- A sermon record as produced by `RAGEngine.search` in `utils.py` and
consumed by `RecommendationEngine.rank_sermons`: the dict with keys
`title`, `description`, `message_link`, `image_url`, `channel`, `date`,
`theme`, `similarity_score`. -/
structure Sermon where
  title : String
  description : String
  message_link : String
  image_url : Option String
  channel : String
  date : String
  theme : String
  similarity_score : ℚ
deriving DecidableEq, Repr

/-- Metadata of a stored document as read by `RAGEngine.search`
(`doc.metadata.get(...)`): every field may be absent. -/
structure DocMetadata where
  title : Option String
  description : Option String
  message_link : Option String
  image_url : Option String
  channel : Option String
  date : Option String
  theme : Option String
deriving DecidableEq, Repr

namespace RAGEngine

/-- Formatting of one `(doc, score)` pair inside the loop of
`RAGEngine.search` (`utils.py` lines 71-82): defaults applied with
`.get`, and `similarity_score = 1 - score`. -/
def formatHit (md : DocMetadata) (score : ℚ) : Sermon :=
  ⟨md.title.getD "Untitled", md.description.getD "", md.message_link.getD "",
   md.image_url, md.channel.getD "", md.date.getD "", md.theme.getD "",
   1 - score⟩

/-- The result-formatting portion of `RAGEngine.search` (`utils.py`
lines 67-85), taking the raw `(doc, distance)` pairs returned by the
vector store as input. -/
def search (results : List (DocMetadata × ℚ)) : List Sermon :=
  results.map fun p => formatHit p.1 p.2

end RAGEngine

/-- The `expires_at` field of a cache file as seen by
`datetime.fromisoformat`: either not a string (a `TypeError`) or some
string. -/
inductive ExpiresField where
  | nonString
  | iso (s : String)
deriving DecidableEq, Repr

/-- Content of one cache file, as far as `CacheManager.get` / `set`
inspect it: `malformed` (so `json.load` raises), `notDict` (parsed JSON
is not an object, so `data[...]` raises), or an object with optional
`expires_at` and `value` fields. -/
inductive CacheFile (α : Type) where
  | malformed
  | notDict
  | dict (expires_at : Option ExpiresField) (value : Option α)
deriving DecidableEq, Repr

/-- The cache directory: an association of file names to contents. -/
abbrev FS (α : Type) := List (String × CacheFile α)

/-- File-name lookup (first match; names are unique in a directory). -/
def fsLookup {α : Type} : FS α → String → Option (CacheFile α)
  | [], _ => none
  | (n, f) :: rest, name => if n = name then some f else fsLookup rest name

/-- `os.remove`: drop the file of the given name. -/
def fsRemove {α : Type} (fs : FS α) (name : String) : FS α :=
  fs.filter fun p => p.1 ≠ name

/-- `open(..., 'w')` + `json.dump`: replace the file of the given name. -/
def fsWrite {α : Type} (fs : FS α) (name : String) (f : CacheFile α) : FS α :=
  (name, f) :: fsRemove fs name

/-- Digit value of a character, if it is a decimal digit. -/
def digitVal? (c : Char) : Option Nat :=
  if 48 ≤ c.toNat ∧ c.toNat ≤ 57 then some (c.toNat - 48) else none

/-- Decimal reading of a non-empty digit string. -/
def digitsToNat? (ds : List Char) : Option Nat :=
  if ds.isEmpty then none
  else
    ds.foldl
      (fun acc? c => acc?.bind fun acc => (digitVal? c).map fun d => acc * 10 + d)
      (some 0)

/-- Modelled abstraction of `datetime.fromisoformat`: a partial parse of a
timestamp string, failing on strings that are not timestamps.  Timestamps
are integers (epoch seconds) rendered by `isoFormat`. -/
def parseIsoTime (s : String) : Option Int :=
  match s.data with
  | '-' :: ds => (digitsToNat? ds).map fun n => -(n : Int)
  | ds => (digitsToNat? ds).map fun n => (n : Int)

/-- Modelled abstraction of `datetime.isoformat`: render a timestamp so
that `parseIsoTime` recovers it. -/
def isoFormat (t : Int) : String :=
  toString t

namespace CacheManager

/-- `CacheManager.get` (`utils.py` lines 249-270).  Returns the cached
value (or `none`: every failure inside the `try` is caught and turned
into `None`) together with the cache state after the call — an expired
entry is removed by `os.remove` on the read that discovers it. -/
def get {α : Type} (fs : FS α) (now : Int) (key : String) :
    Option α × FS α :=
  match fsLookup fs (key ++ ".json") with
  | none => (none, fs)
  | some CacheFile.malformed => (none, fs)
  | some CacheFile.notDict => (none, fs)
  | some (CacheFile.dict expF valF) =>
    match expF with
    | none => (none, fs)
    | some ExpiresField.nonString => (none, fs)
    | some (ExpiresField.iso s) =>
      match parseIsoTime s with
      | none => (none, fs)
      | some expiresAt =>
        if expiresAt < now then (none, fsRemove fs (key ++ ".json"))
        else
          match valF with
          | none => (none, fs)
          | some v => (some v, fs)

/-- `CacheManager.set` (`utils.py` lines 272-285): write the value with
expiry `now + CACHE_DURATION_HOURS` hours. -/
def set {α : Type} (fs : FS α) (now : Int) (key : String) (value : α) :
    FS α :=
  fsWrite fs (key ++ ".json")
    (CacheFile.dict
      (some (ExpiresField.iso (isoFormat (now + CACHE_DURATION_HOURS * 3600))))
      (some value))

end CacheManager

/-- A Python value as produced by `json.loads`, restricted to what the
re-ordering loop of `rank_sermons` can meet as an element of the parsed
array. -/
inductive PyVal where
  | pnull
  | pbool (b : Bool)
  | pint (n : Int)
  | pfloat (q : ℚ)
  | pstr (s : String)
  | plist (xs : List PyVal)
  | pdict (kvs : List (String × PyVal))

/-- One step of the re-ordering loop of `rank_sermons` (`utils.py` lines
163-166): `0 <= idx < len(sermons)` followed by `sermons[idx]`, with
Python semantics per element type.  `ok none` means the bounds check was
false (the element is skipped); `ok (some s)` means the check passed and
indexing yielded `s`; `error` means a `TypeError` was raised (comparison
with a non-number, or list indexing by a float). -/
def pyIndex (sermons : List Sermon) : PyVal → Except Unit (Option Sermon)
  | PyVal.pint n => Except.ok (if 0 ≤ n then sermons[n.toNat]? else none)
  | PyVal.pbool b => Except.ok (sermons[(if b then 1 else 0)]?)
  | PyVal.pfloat q =>
    if 0 ≤ q ∧ q < (sermons.length : ℚ) then Except.error () else Except.ok none
  | _ => Except.error ()

/-- The re-ordering loop of `rank_sermons` (`utils.py` lines 159-171):
walk the index list, skip out-of-bounds indexes, skip source-links
already emitted (`seen_links`), and accumulate the survivors; a
`TypeError` anywhere aborts the whole `try` block. -/
def reorderLoop (sermons : List Sermon) :
    List PyVal → List Sermon → List String → Except Unit (List Sermon)
  | [], acc, _ => Except.ok acc
  | idx :: rest, acc, seen =>
    match pyIndex sermons idx with
    | Except.error e => Except.error e
    | Except.ok none => reorderLoop sermons rest acc seen
    | Except.ok (some s) =>
      if s.message_link ∈ seen then reorderLoop sermons rest acc seen
      else reorderLoop sermons rest (acc ++ [s]) (s.message_link :: seen)

/-- Outcome of the `llm.invoke` call in `rank_sermons`: either the call
raised, or it returned a reply whose stripped content is `content`; in
the latter case `loads` is what `json.loads content` would yield —
`none` when it would raise, `some xs` the elements of the decoded array
(a JSON document delimited by `[` and `]` is an array). -/
inductive LLMOutcome where
  | raise
  | reply (content : String) (loads : Option (List PyVal))

/-- The test `content.startswith('[') and content.endswith(']')` of
`rank_sermons` (`utils.py` line 153): for these one-character affixes
this is exactly "the first character is `[` and the last is `]`". -/
def bracketDelimited (c : String) : Bool :=
  c.data.head? == some '[' && c.data.getLast? == some ']'

/-- The similarity-score fallback of `rank_sermons` (`utils.py` line
182): keep candidates with `similarity_score >= MIN_RELEVANCE_SCORE`,
in original order. -/
def fallbackFilter (sermons : List Sermon) : List Sermon :=
  sermons.filter fun s => MIN_RELEVANCE_SCORE ≤ s.similarity_score

/-- The cache key of `rank_sermons` (`utils.py` line 121), the md5
hex digest passed in as a function. -/
def rankCacheKey (md5hex : String → String) (user_id : Int) (query : String) :
    String :=
  "rank_" ++ toString user_id ++ "_" ++ md5hex query

/-- Choice of `ranked_indexes` in `rank_sermons` (`utils.py` lines
149-157): an exception from the model call or from `json.loads`
propagates; a non-bracket-delimited reply falls back to
`list(range(min(10, len(sermons))))`. -/
def rankedIndexes (sermons : List Sermon) (llm : LLMOutcome) :
    Except Unit (List PyVal) :=
  match llm with
  | LLMOutcome.raise => Except.error ()
  | LLMOutcome.reply content loads =>
    if bracketDelimited content then
      match loads with
      | none => Except.error ()
      | some xs => Except.ok xs
    else
      Except.ok ((List.range (min 10 sermons.length)).map fun n => PyVal.pint n)

/-- The body of the `try` block of `rank_sermons` after a cache miss
(`utils.py` lines 127-182): any exception yields the similarity-score
fallback without caching; otherwise the re-ordered list is cached and
returned. -/
def rankBody (sermons : List Sermon) (llm : LLMOutcome) (now : Int)
    (fs : FS (List Sermon)) (key : String) :
    List Sermon × FS (List Sermon) :=
  match rankedIndexes sermons llm with
  | Except.error _ => (fallbackFilter sermons, fs)
  | Except.ok idxs =>
    match reorderLoop sermons idxs [] [] with
    | Except.error _ => (fallbackFilter sermons, fs)
    | Except.ok ranked => (ranked, CacheManager.set fs now key ranked)

namespace RecommendationEngine

/-- `RecommendationEngine.rank_sermons` (`utils.py` lines 112-182).
State threaded explicitly: the cache directory `fs` and the clock `now`;
the model call is the oracle `llm`.  An empty candidate list returns
`[]` at once; a *truthy* cached value (Python `if cached:`, so a
non-empty list) is returned unchanged. -/
def rank_sermons (md5hex : String → String) (now : Int)
    (fs : FS (List Sermon)) (query : String) (sermons : List Sermon)
    (user_id : Int) (llm : LLMOutcome) :
    List Sermon × FS (List Sermon) :=
  if sermons.isEmpty then ([], fs)
  else
    match (CacheManager.get fs now (rankCacheKey md5hex user_id query)).1 with
    | some l =>
      if l.isEmpty then
        rankBody sermons llm now
          (CacheManager.get fs now (rankCacheKey md5hex user_id query)).2
          (rankCacheKey md5hex user_id query)
      else (l, (CacheManager.get fs now (rankCacheKey md5hex user_id query)).2)
    | none =>
      rankBody sermons llm now
        (CacheManager.get fs now (rankCacheKey md5hex user_id query)).2
        (rankCacheKey md5hex user_id query)

end RecommendationEngine

/-- One user session stored in `PastorTaraBot.user_sessions`
(`telegram_bot.py` lines 181-184): the ranked sermons and the cursor. -/
structure Session where
  sermons : List Sermon
  index : Nat
deriving DecidableEq, Repr

/-- The session map `user_sessions`. -/
abbrev Sessions := List (Int × Session)

/-- Session lookup (`user_id in self.user_sessions`). -/
def sessionsLookup : Sessions → Int → Option Session
  | [], _ => none
  | (u, s) :: rest, uid => if u = uid then some s else sessionsLookup rest uid

/-- Session assignment for a present key (`session['index'] = ...`). -/
def sessionsUpdate (sessions : Sessions) (uid : Int) (s : Session) : Sessions :=
  sessions.map fun p => if p.1 = uid then (uid, s) else p

/-- Outcome signalled to the user by `_handle_more`: the
"search first" reply, the "no more results" reply, or a batch of
sermons sent. -/
inductive MoreSignal where
  | mustSearchFirst
  | noMore
  | batch (sermons : List Sermon)
deriving DecidableEq, Repr

namespace PastorTaraBot

/-- `PastorTaraBot._handle_more` (`telegram_bot.py` lines 260-297):
no session → "search first"; empty slice `sermons[i:i+5]` → "no more"
with the session left alone; otherwise the slice is sent and the cursor
becomes `current_index + 5`. -/
def handle_more (sessions : Sessions) (uid : Int) : MoreSignal × Sessions :=
  match sessionsLookup sessions uid with
  | none => (MoreSignal.mustSearchFirst, sessions)
  | some sess =>
    let nb := (sess.sermons.drop sess.index).take 5
    if nb.isEmpty then (MoreSignal.noMore, sessions)
    else
      (MoreSignal.batch nb,
       sessionsUpdate sessions uid ⟨sess.sermons, sess.index + 5⟩)

end PastorTaraBot

/-- Incoming `sermon_data` dict of `SermonDatabase.add_sermon`: every
field may be absent (`.get` defaults are applied inside). -/
structure SermonInput where
  title : Option String
  description : Option String
  channel : Option String
  message_link : Option String
  image_url : Option String
  date : Option String
  theme : Option String
deriving DecidableEq, Repr

/-- One row of the `sermons` table of `db_handler.py`. -/
structure SermonRow where
  id : Nat
  title : String
  description : String
  channel : String
  message_link : String
  image_url : Option String
  date : Option String
  theme : String
deriving DecidableEq, Repr

/-- The `sermons` table: rows plus the next AUTOINCREMENT rowid. -/
structure SermonTable where
  nextId : Nat
  rows : List SermonRow
deriving DecidableEq, Repr

namespace SermonDatabase

/-- The row built by `add_sermon` from `sermon_data` (`db_handler.py`
lines 93-105), with the `.get` defaults of the source. -/
def rowOf (id : Nat) (d : SermonInput) : SermonRow :=
  ⟨id, d.title.getD "", d.description.getD "", d.channel.getD "",
   d.message_link.getD "", d.image_url, d.date, d.theme.getD ""⟩

/-- `SermonDatabase.add_sermon` (`db_handler.py` lines 87-119):
`INSERT OR REPLACE` against the `UNIQUE` constraint on `message_link`
deletes any row carrying the same link and inserts a fresh row with a
fresh rowid, which is returned. -/
def add_sermon (t : SermonTable) (d : SermonInput) :
    Option Nat × SermonTable :=
  let link := d.message_link.getD ""
  let row := rowOf t.nextId d
  (some t.nextId,
   ⟨t.nextId + 1, (t.rows.filter fun r => r.message_link ≠ link) ++ [row]⟩)

/-- `SermonDatabase.get_sermon_count` (`db_handler.py` lines 179-188). -/
def get_sermon_count (t : SermonTable) : Nat :=
  t.rows.length

end SermonDatabase

/-! ### Concrete data for witnesses and counterexamples -/

/-- A concrete sermon with given index and similarity score; distinct
indexes give distinct source-links. -/
def sermonScored (i : Nat) (q : ℚ) : Sermon :=
  ⟨"t" ++ toString i, "d", "L" ++ toString i, none, "c", "", "", q⟩

/-- A concrete sermon with similarity score 0.9. -/
def sermonAt (i : Nat) : Sermon :=
  sermonScored i (mkRat 9 10)

/-- A concrete sermon whose source-link is always `"L"`. -/
def sermonLinked (t : String) (q : ℚ) : Sermon :=
  ⟨t, "d", "L", none, "c", "", "", q⟩

/-- A cache directory holding, under the ranking key for user 1 and
query `"q"` (with the md5 digest modelled by `id`), a non-expired entry
whose cached value is the empty list. -/
def cachedEmptyFs : FS (List Sermon) :=
  [("rank_1_q.json",
    CacheFile.dict (some (ExpiresField.iso "100")) (some ([] : List Sermon)))]

/-- A cache directory holding a non-expired entry with value
`[sermonScored 1 (mkRat 1 2)]` under the ranking key for user 1,
query `"q"`. -/
def cachedOneFs : FS (List Sermon) :=
  [("rank_1_q.json",
    CacheFile.dict (some (ExpiresField.iso "100"))
      (some [sermonScored 1 (mkRat 1 2)]))]

/-- Concrete document metadata for the retrieval examples. -/
def mdEx : DocMetadata :=
  ⟨some "T", some "D", some "L", none, some "C", some "", some ""⟩

/-- The spec's example candidate list: similarity scores 0.9, 0.5, 0.8
at indexes 0, 1, 2, with distinct source-links. -/
def cexSermons : List Sermon :=
  [sermonScored 0 (mkRat 9 10), sermonScored 1 (mkRat 1 2),
   sermonScored 2 (mkRat 4 5)]

/-- Two candidates sharing the source-link `"L"`, both above the
minimum relevance score. -/
def dupSermons : List Sermon :=
  [sermonLinked "tA" (mkRat 9 10), sermonLinked "tB" (mkRat 4 5)]

/-- The conditions under which the `try` block of `rank_sermons` raises:
the model call raised; the reply was bracket-delimited but `json.loads`
raised; or the decoded array made the re-ordering loop raise a
`TypeError`. -/
def rankExceptionPath (sermons : List Sermon) (llm : LLMOutcome) : Prop :=
  llm = LLMOutcome.raise
  ∨ (∃ c, llm = LLMOutcome.reply c none ∧ bracketDelimited c = true)
  ∨ (∃ c xs, llm = LLMOutcome.reply c (some xs) ∧ bracketDelimited c = true
      ∧ reorderLoop sermons xs [] [] = Except.error ())

/-! ### Helper lemmas about the cache -/

theorem fsLookup_fsRemove_self {α : Type} (fs : FS α) (name : String) :
    fsLookup (fsRemove fs name) name = none := by
  induction fs with
  | nil => rfl
  | cons p rest ih =>
    by_cases h : p.1 = name <;>
      simp [fsRemove, List.filter, h, fsLookup] at ih ⊢ <;>
      simpa [fsRemove] using ih

theorem CacheManager.get_of_lookup_none {α : Type} {fs : FS α} {now : Int}
    {key : String} (h : fsLookup fs (key ++ ".json") = none) :
    CacheManager.get fs now key = (none, fs) := by
  unfold CacheManager.get
  rw [h]

theorem CacheManager.get_of_expired {α : Type} {fs : FS α} {now : Int}
    {key s : String} {t : Int} {v : Option α}
    (hf : fsLookup fs (key ++ ".json")
            = some (CacheFile.dict (some (ExpiresField.iso s)) v))
    (hp : parseIsoTime s = some t) (ht : t < now) :
    CacheManager.get fs now key = (none, fsRemove fs (key ++ ".json")) := by
  unfold CacheManager.get
  rw [hf]
  simp [hp, ht]

theorem CacheManager.get_snd_of_fst_some {α : Type} {fs : FS α} {now : Int}
    {key : String} {v : α}
    (h : (CacheManager.get fs now key).1 = some v) :
    (CacheManager.get fs now key).2 = fs := by
  unfold CacheManager.get at h ⊢
  rcases hfl : fsLookup fs (key ++ ".json") with _ | f
  · simp [hfl]
  · cases f with
    | malformed => simp [hfl]
    | notDict => simp [hfl]
    | dict expF valF =>
      rcases expF with _ | ef
      · simp [hfl]
      · cases ef with
        | nonString => simp [hfl]
        | iso s =>
          rcases hp : parseIsoTime s with _ | t
          · simp [hfl, hp]
          · by_cases hlt : t < now
            · simp [hfl, hp, hlt] at h
            · rcases valF with _ | v'
              · simp [hfl, hp, hlt] at h
              · simp [hfl, hp, hlt]

/-! ### C6 -/

/-- C6: a stored entry whose expiry timestamp is earlier than the current
time is treated as absent by `CacheManager.get`, the entry is physically
removed on that read, and a subsequent `get` for the same key is also
absent (and a no-op) without any intervening write. -/
theorem cacheManager_get_expired_lazy_eviction {α : Type} (fs : FS α)
    (now : Int) (key s : String) (t : Int) (v : Option α)
    (hf : fsLookup fs (key ++ ".json")
            = some (CacheFile.dict (some (ExpiresField.iso s)) v))
    (hp : parseIsoTime s = some t) (ht : t < now) :
    (CacheManager.get fs now key).1 = none ∧
    fsLookup (CacheManager.get fs now key).2 (key ++ ".json") = none ∧
    CacheManager.get (CacheManager.get fs now key).2 now key
      = (none, (CacheManager.get fs now key).2) := by
  rw [CacheManager.get_of_expired hf hp ht]
  refine ⟨rfl, fsLookup_fsRemove_self fs (key ++ ".json"), ?_⟩
  exact CacheManager.get_of_lookup_none (fsLookup_fsRemove_self fs (key ++ ".json"))

/-- Witness for C6 at a concrete cache state. -/
theorem cacheManager_get_expired_lazy_eviction_witness :
    (fsLookup [("k.json", CacheFile.dict (some (ExpiresField.iso "100")) (some (5 : Nat)))] ("k" ++ ".json")
        = some (CacheFile.dict (some (ExpiresField.iso "100")) (some (5 : Nat)))
      ∧ parseIsoTime "100" = some 100 ∧ (100 : Int) < 500) ∧
    ((CacheManager.get [("k.json", CacheFile.dict (some (ExpiresField.iso "100")) (some (5 : Nat)))] 500 "k").1 = none ∧
     fsLookup (CacheManager.get [("k.json", CacheFile.dict (some (ExpiresField.iso "100")) (some (5 : Nat)))] 500 "k").2 ("k" ++ ".json") = none ∧
     CacheManager.get (CacheManager.get [("k.json", CacheFile.dict (some (ExpiresField.iso "100")) (some (5 : Nat)))] 500 "k").2 500 "k"
       = (none, (CacheManager.get [("k.json", CacheFile.dict (some (ExpiresField.iso "100")) (some (5 : Nat)))] 500 "k").2)) :=
  ⟨⟨by decide, by decide, by decide⟩,
   cacheManager_get_expired_lazy_eviction _ 500 "k" "100" 100 (some 5)
     (by decide) (by decide) (by decide)⟩

/-! ### C10 -/

/-- C10: `CacheManager.get` is total at its interface: a missing file,
malformed JSON, a non-object JSON document, a missing `expires_at` or
`value` field, a non-string or unparseable timestamp — each yields
absent (`none`) rather than an exception. -/
theorem cacheManager_get_total (α : Type) (fs : FS α) (now : Int) (key : String)
    (h : fsLookup fs (key ++ ".json") = none
       ∨ fsLookup fs (key ++ ".json") = some CacheFile.malformed
       ∨ fsLookup fs (key ++ ".json") = some CacheFile.notDict
       ∨ (∃ v, fsLookup fs (key ++ ".json") = some (CacheFile.dict none v))
       ∨ (∃ v, fsLookup fs (key ++ ".json")
            = some (CacheFile.dict (some ExpiresField.nonString) v))
       ∨ (∃ s v, fsLookup fs (key ++ ".json")
            = some (CacheFile.dict (some (ExpiresField.iso s)) v)
            ∧ parseIsoTime s = none)
       ∨ (∃ s, fsLookup fs (key ++ ".json")
            = some (CacheFile.dict (some (ExpiresField.iso s)) none))) :
    (CacheManager.get fs now key).1 = none := by
  rcases h with h | h | h | ⟨v, h⟩ | ⟨v, h⟩ | ⟨s, v, h, hp⟩ | ⟨s, h⟩
  · simp [CacheManager.get, h]
  · simp [CacheManager.get, h]
  · simp [CacheManager.get, h]
  · simp [CacheManager.get, h]
  · simp [CacheManager.get, h]
  · simp [CacheManager.get, h, hp]
  · rcases hp : parseIsoTime s with _ | t
    · simp [CacheManager.get, h, hp]
    · by_cases hlt : t < now <;> simp [CacheManager.get, h, hp, hlt]

/-- Witness for C10: a cache file holding malformed JSON. -/
theorem cacheManager_get_total_witness :
    (fsLookup [("k.json", (CacheFile.malformed : CacheFile Nat))] ("k" ++ ".json")
        = some CacheFile.malformed) ∧
    (CacheManager.get [("k.json", (CacheFile.malformed : CacheFile Nat))] 0 "k").1 = none :=
  ⟨by decide,
   cacheManager_get_total Nat _ 0 "k" (Or.inr (Or.inl (by decide)))⟩

/-! ### C9 -/

/-- C9: a "more" request from a user with no session produces the
distinct "must search first" signal — not an empty batch and not the
"no more results" signal — and leaves the session map unchanged. -/
theorem handle_more_no_session (sessions : Sessions) (uid : Int)
    (h : sessionsLookup sessions uid = none) :
    PastorTaraBot.handle_more sessions uid
      = (MoreSignal.mustSearchFirst, sessions) := by
  unfold PastorTaraBot.handle_more
  rw [h]

/-- Witness for C9 on the empty session map. -/
theorem handle_more_no_session_witness :
    sessionsLookup [] 7 = none ∧
    PastorTaraBot.handle_more [] 7 = (MoreSignal.mustSearchFirst, []) :=
  ⟨rfl, handle_more_no_session [] 7 rfl⟩

/-! ### C3 -/

/-- Counterexample to C3 as stated: with a 9-item ranked list and the
cursor at 5, a "more" request returns the remaining 4 items but sets the
cursor to `5 + 5 = 10`, not to `5 + 4 = 9` as the claim requires. -/
theorem handle_more_cursor_cex :
    PastorTaraBot.handle_more [((1 : Int), ⟨(List.range 9).map sermonAt, 5⟩)] 1
      = (MoreSignal.batch (((List.range 9).map sermonAt).drop 5),
         [((1 : Int), ⟨(List.range 9).map sermonAt, 10⟩)])
    ∧ 5 + (((List.range 9).map sermonAt).drop 5).length = 9
    ∧ (9 : Nat) ≠ 10 := by decide

/-- C3 amended: `handle_more` reads the fixed-size-5 slice at the
cursor; an empty slice signals "no more results" and leaves the session
untouched; a non-empty slice is returned and the cursor is advanced by
exactly 5 — not by the number of items actually returned. -/
theorem handle_more_pagination (sessions : Sessions) (uid : Int) (sess : Session)
    (h : sessionsLookup sessions uid = some sess) :
    ((sess.sermons.drop sess.index).take 5 = [] →
      PastorTaraBot.handle_more sessions uid = (MoreSignal.noMore, sessions)) ∧
    ((sess.sermons.drop sess.index).take 5 ≠ [] →
      PastorTaraBot.handle_more sessions uid
        = (MoreSignal.batch ((sess.sermons.drop sess.index).take 5),
           sessionsUpdate sessions uid ⟨sess.sermons, sess.index + 5⟩)) := by
  constructor <;> intro hnb <;> unfold PastorTaraBot.handle_more <;>
    simp [h, List.isEmpty_iff, hnb]

/-- Witness for C3 (amended) at a concrete 9-item session with the
cursor at 5. -/
theorem handle_more_pagination_witness :
    sessionsLookup [((1 : Int), ⟨(List.range 9).map sermonAt, 5⟩)] 1
      = some ⟨(List.range 9).map sermonAt, 5⟩ ∧
    (((((List.range 9).map sermonAt).drop 5).take 5 = [] →
      PastorTaraBot.handle_more [((1 : Int), ⟨(List.range 9).map sermonAt, 5⟩)] 1
        = (MoreSignal.noMore, [((1 : Int), ⟨(List.range 9).map sermonAt, 5⟩)])) ∧
     ((((List.range 9).map sermonAt).drop 5).take 5 ≠ [] →
      PastorTaraBot.handle_more [((1 : Int), ⟨(List.range 9).map sermonAt, 5⟩)] 1
        = (MoreSignal.batch ((((List.range 9).map sermonAt).drop 5).take 5),
           sessionsUpdate [((1 : Int), ⟨(List.range 9).map sermonAt, 5⟩)] 1
             ⟨(List.range 9).map sermonAt, 5 + 5⟩))) :=
  ⟨by decide,
   handle_more_pagination [((1 : Int), ⟨(List.range 9).map sermonAt, 5⟩)] 1
     ⟨(List.range 9).map sermonAt, 5⟩ (by decide)⟩

/-! ### Helper lemmas about the re-ordering loop and `rank_sermons` -/

theorem pyIndex_ok_some_mem {sermons : List Sermon} {x : PyVal} {s : Sermon}
    (h : pyIndex sermons x = Except.ok (some s)) : s ∈ sermons := by
  cases x with
  | pint n =>
    by_cases h0 : 0 ≤ n
    · simp [pyIndex, h0] at h
      exact List.getElem?_mem h
    · simp [pyIndex, h0] at h
  | pbool b =>
    simp [pyIndex] at h
    exact List.getElem?_mem h
  | pfloat q =>
    simp only [pyIndex] at h
    split at h <;> simp at h
  | pnull => simp [pyIndex] at h
  | pstr s' => simp [pyIndex] at h
  | plist xs => simp [pyIndex] at h
  | pdict kvs => simp [pyIndex] at h

theorem reorderLoop_ok_mem {sermons : List Sermon} :
    ∀ (idxs : List PyVal) (acc : List Sermon) (seen : List String)
      (out : List Sermon),
      reorderLoop sermons idxs acc seen = Except.ok out →
      ∀ s ∈ out, s ∈ acc ∨ s ∈ sermons := by
  intro idxs
  induction idxs with
  | nil =>
    intro acc seen out h s hs
    simp [reorderLoop] at h
    exact Or.inl (h ▸ hs)
  | cons x rest ih =>
    intro acc seen out h s hs
    rcases hx : pyIndex sermons x with e | o
    · simp only [reorderLoop, hx] at h
      exact Except.noConfusion h
    · rcases o with _ | s'
      · simp only [reorderLoop, hx] at h
        exact ih _ _ _ h s hs
      · simp only [reorderLoop, hx] at h
        by_cases hseen : s'.message_link ∈ seen
        · rw [if_pos hseen] at h
          exact ih _ _ _ h s hs
        · rw [if_neg hseen] at h
          rcases ih _ _ _ h s hs with hacc | hserm
          · rcases List.mem_append.mp hacc with h1 | h2
            · exact Or.inl h1
            · rw [List.mem_singleton] at h2
              subst h2
              exact Or.inr (pyIndex_ok_some_mem hx)
          · exact Or.inr hserm

theorem reorderLoop_ok_nodup {sermons : List Sermon} :
    ∀ (idxs : List PyVal) (acc : List Sermon) (seen : List String)
      (out : List Sermon),
      (acc.map Sermon.message_link).Nodup →
      (∀ l ∈ acc.map Sermon.message_link, l ∈ seen) →
      reorderLoop sermons idxs acc seen = Except.ok out →
      (out.map Sermon.message_link).Nodup := by
  intro idxs
  induction idxs with
  | nil =>
    intro acc seen out hnd hsub h
    simp [reorderLoop] at h
    exact h ▸ hnd
  | cons x rest ih =>
    intro acc seen out hnd hsub h
    rcases hx : pyIndex sermons x with e | o
    · simp only [reorderLoop, hx] at h
      exact Except.noConfusion h
    · rcases o with _ | s'
      · simp only [reorderLoop, hx] at h
        exact ih _ _ _ hnd hsub h
      · simp only [reorderLoop, hx] at h
        by_cases hseen : s'.message_link ∈ seen
        · rw [if_pos hseen] at h
          exact ih _ _ _ hnd hsub h
        · rw [if_neg hseen] at h
          refine ih _ _ _ ?_ ?_ h
          · rw [List.map_append]
            refine List.nodup_append.mpr ⟨hnd, List.nodup_singleton _, ?_⟩
            intro a ha hb
            simp at hb
            subst hb
            exact hseen (hsub _ ha)
          · intro l hl
            rw [List.map_append] at hl
            rcases List.mem_append.mp hl with h1 | h2
            · exact List.mem_cons_of_mem _ (hsub l h1)
            · simp at h2
              subst h2
              exact List.mem_cons_self _ _

theorem reorderLoop_ok_of_pint {sermons : List Sermon} :
    ∀ (idxs : List PyVal),
      (∀ x ∈ idxs, ∃ n : Int, x = PyVal.pint n) →
      ∀ (acc : List Sermon) (seen : List String),
      ∃ out, reorderLoop sermons idxs acc seen = Except.ok out := by
  intro idxs
  induction idxs with
  | nil => exact fun _ acc seen => ⟨acc, rfl⟩
  | cons x rest ih =>
    intro hall acc seen
    obtain ⟨n, rfl⟩ := hall x (List.mem_cons_self _ _)
    have hrest : ∀ y ∈ rest, ∃ m : Int, y = PyVal.pint m :=
      fun y hy => hall y (List.mem_cons_of_mem _ hy)
    rcases ho : (if 0 ≤ n then sermons[n.toNat]? else none) with _ | s'
    · have hstep : reorderLoop sermons (PyVal.pint n :: rest) acc seen
          = reorderLoop sermons rest acc seen := by
        simp only [reorderLoop, pyIndex, ho]
      rw [hstep]
      exact ih hrest acc seen
    · by_cases hseen : s'.message_link ∈ seen
      · have hstep : reorderLoop sermons (PyVal.pint n :: rest) acc seen
            = reorderLoop sermons rest acc seen := by
          simp only [reorderLoop, pyIndex, ho, if_pos hseen]
        rw [hstep]
        exact ih hrest acc seen
      · have hstep : reorderLoop sermons (PyVal.pint n :: rest) acc seen
            = reorderLoop sermons rest (acc ++ [s']) (s'.message_link :: seen) := by
          simp only [reorderLoop, pyIndex, ho, if_neg hseen]
        rw [hstep]
        exact ih hrest (acc ++ [s']) (s'.message_link :: seen)

theorem reorderLoop_skip_out_of_range {sermons : List Sermon} (n : Int)
    (hn : ¬ (0 ≤ n ∧ n < (sermons.length : Int))) :
    ∀ (ys zs : List PyVal) (acc : List Sermon) (seen : List String),
      reorderLoop sermons (ys ++ PyVal.pint n :: zs) acc seen
        = reorderLoop sermons (ys ++ zs) acc seen := by
  have hnone : (if 0 ≤ n then sermons[n.toNat]? else none) = none := by
    by_cases h0 : 0 ≤ n
    · rw [if_pos h0]
      refine List.getElem?_eq_none ?_
      have hge : ¬ n < (sermons.length : Int) := fun hlt => hn ⟨h0, hlt⟩
      omega
    · rw [if_neg h0]
  intro ys
  induction ys with
  | nil =>
    intro zs acc seen
    simp only [List.nil_append]
    simp only [reorderLoop, pyIndex, hnone]
  | cons y ys ih =>
    intro zs acc seen
    simp only [List.cons_append]
    rcases hy : pyIndex sermons y with e | o
    · simp only [reorderLoop, hy]
    · rcases o with _ | s'
      · simp only [reorderLoop, hy]
        exact ih zs acc seen
      · simp only [reorderLoop, hy]
        by_cases hseen : s'.message_link ∈ seen
        · rw [if_pos hseen, if_pos hseen]
          exact ih zs acc seen
        · rw [if_neg hseen, if_neg hseen]
          exact ih zs (acc ++ [s']) (s'.message_link :: seen)

theorem rankBody_exception (sermons : List Sermon) (llm : LLMOutcome)
    (now : Int) (fs : FS (List Sermon)) (key : String)
    (h : rankExceptionPath sermons llm) :
    rankBody sermons llm now fs key = (fallbackFilter sermons, fs) := by
  rcases h with rfl | ⟨c, rfl, hb⟩ | ⟨c, xs, rfl, hb, herr⟩
  · rfl
  · simp [rankBody, rankedIndexes, hb]
  · simp [rankBody, rankedIndexes, hb, herr]

theorem rankBody_ok (sermons : List Sermon) (llm : LLMOutcome)
    (now : Int) (fs : FS (List Sermon)) (key : String)
    (idxs : List PyVal) (out : List Sermon)
    (hi : rankedIndexes sermons llm = Except.ok idxs)
    (ho : reorderLoop sermons idxs [] [] = Except.ok out) :
    rankBody sermons llm now fs key = (out, CacheManager.set fs now key out) := by
  simp [rankBody, hi, ho]

theorem rank_eq_body (md5hex : String → String) (now : Int)
    (fs : FS (List Sermon)) (query : String) (sermons : List Sermon)
    (user_id : Int) (llm : LLMOutcome)
    (hne : sermons ≠ [])
    (hmiss : (CacheManager.get fs now (rankCacheKey md5hex user_id query)).1 = none
           ∨ (CacheManager.get fs now (rankCacheKey md5hex user_id query)).1
               = some ([] : List Sermon)) :
    RecommendationEngine.rank_sermons md5hex now fs query sermons user_id llm
      = rankBody sermons llm now
          (CacheManager.get fs now (rankCacheKey md5hex user_id query)).2
          (rankCacheKey md5hex user_id query) := by
  have hE : sermons.isEmpty = false := by
    cases sermons with
    | nil => exact absurd rfl hne
    | cons a l => rfl
  rcases hmiss with h | h
  · simp [RecommendationEngine.rank_sermons, hE, h]
  · simp [RecommendationEngine.rank_sermons, hE, h]

/-! ### C1 -/

/-- Counterexample to C1 as stated: on the spec's own example (scores
0.9, 0.5, 0.8) with a reply that is not parseable as a JSON array
(`"not json"`), `rank_sermons` does not return the similarity-filtered
list `[candidate0, candidate2]` — it returns all three candidates in
original order (the `range(min(10, len))` path). -/
theorem rank_sermons_unparseable_cex :
    fallbackFilter cexSermons
      = [sermonScored 0 (mkRat 9 10), sermonScored 2 (mkRat 4 5)]
    ∧ (RecommendationEngine.rank_sermons id 0 [] "q" cexSermons 1
        (LLMOutcome.reply "not json" none)).1 = cexSermons
    ∧ cexSermons ≠ [sermonScored 0 (mkRat 9 10), sermonScored 2 (mkRat 4 5)] := by
  decide

/-- C1 amended: on a cache miss, the similarity-score fallback is
returned exactly on the exception paths (model call raised; reply
bracket-delimited but not JSON-decodable; decoded array causing a
`TypeError` in re-ordering).  The result is pinned on every other
path: a reply that is *not* bracket-delimited does not trigger the
fallback but proceeds with the first `min(10, len)` original-order
indexes; a bracket-delimited, successfully decoded reply returns
exactly the re-ordering loop's output; and an out-of-range index in a
decoded array is skipped — deleting it from the array leaves the
entire result of `rank_sermons` unchanged, so it never triggers the
fallback. -/
theorem rank_sermons_fallback_policy (md5hex : String → String) (now : Int)
    (fs : FS (List Sermon)) (query : String) (sermons : List Sermon)
    (user_id : Int) (llm : LLMOutcome)
    (hne : sermons ≠ [])
    (hmiss : (CacheManager.get fs now (rankCacheKey md5hex user_id query)).1 = none
           ∨ (CacheManager.get fs now (rankCacheKey md5hex user_id query)).1
               = some ([] : List Sermon)) :
    (rankExceptionPath sermons llm →
      (RecommendationEngine.rank_sermons md5hex now fs query sermons user_id llm).1
        = fallbackFilter sermons)
    ∧ (∀ c loads, llm = LLMOutcome.reply c loads → bracketDelimited c = false →
        ∃ out,
          reorderLoop sermons
            ((List.range (min 10 sermons.length)).map fun n => PyVal.pint n) [] []
            = Except.ok out
          ∧ (RecommendationEngine.rank_sermons md5hex now fs query sermons
               user_id llm).1 = out)
    ∧ (∀ c xs out, llm = LLMOutcome.reply c (some xs) → bracketDelimited c = true →
        reorderLoop sermons xs [] [] = Except.ok out →
        (RecommendationEngine.rank_sermons md5hex now fs query sermons
           user_id llm).1 = out)
    ∧ (∀ (c : String) (ys zs : List PyVal) (n : Int), bracketDelimited c = true →
        ¬ (0 ≤ n ∧ n < (sermons.length : Int)) →
        RecommendationEngine.rank_sermons md5hex now fs query sermons user_id
            (LLMOutcome.reply c (some (ys ++ PyVal.pint n :: zs)))
          = RecommendationEngine.rank_sermons md5hex now fs query sermons user_id
              (LLMOutcome.reply c (some (ys ++ zs)))) := by
  refine ⟨?_, ?_, ?_, ?_⟩
  · intro hexc
    rw [rank_eq_body md5hex now fs query sermons user_id llm hne hmiss,
      rankBody_exception _ _ _ _ _ hexc]
  · intro c loads hllm hb
    obtain ⟨out, hout⟩ := reorderLoop_ok_of_pint
      ((List.range (min 10 sermons.length)).map fun n => PyVal.pint n)
      (by
        intro x hx
        rcases List.mem_map.mp hx with ⟨n, _, rfl⟩
        exact ⟨n, rfl⟩) [] []
    refine ⟨out, hout, ?_⟩
    have hi : rankedIndexes sermons llm
        = Except.ok ((List.range (min 10 sermons.length)).map fun n => PyVal.pint n) := by
      subst hllm
      simp [rankedIndexes, hb]
    rw [rank_eq_body md5hex now fs query sermons user_id llm hne hmiss,
      rankBody_ok _ _ _ _ _ _ _ hi hout]
  · intro c xs out hllm hb ho
    have hi : rankedIndexes sermons llm = Except.ok xs := by
      subst hllm
      simp [rankedIndexes, hb]
    rw [rank_eq_body md5hex now fs query sermons user_id llm hne hmiss,
      rankBody_ok _ _ _ _ _ _ _ hi ho]
  · intro c ys zs n hb hn
    have h1 : rankedIndexes sermons
        (LLMOutcome.reply c (some (ys ++ PyVal.pint n :: zs)))
        = Except.ok (ys ++ PyVal.pint n :: zs) := by
      simp [rankedIndexes, hb]
    have h2 : rankedIndexes sermons (LLMOutcome.reply c (some (ys ++ zs)))
        = Except.ok (ys ++ zs) := by
      simp [rankedIndexes, hb]
    rw [rank_eq_body md5hex now fs query sermons user_id
        (LLMOutcome.reply c (some (ys ++ PyVal.pint n :: zs))) hne hmiss,
      rank_eq_body md5hex now fs query sermons user_id
        (LLMOutcome.reply c (some (ys ++ zs))) hne hmiss]
    simp only [rankBody, h1, h2]
    rw [reorderLoop_skip_out_of_range n hn ys zs [] []]

/-- Witness for C1 (amended): the model call raises on the spec's
example list; the fallback is exactly the similarity filter, and the
out-of-range-skip equation holds concretely. -/
theorem rank_sermons_fallback_policy_witness :
    (cexSermons ≠ []
      ∧ (CacheManager.get ([] : FS (List Sermon)) 0 (rankCacheKey id 1 "q")).1 = none) ∧
    ((rankExceptionPath cexSermons LLMOutcome.raise →
      (RecommendationEngine.rank_sermons id 0 [] "q" cexSermons 1 LLMOutcome.raise).1
        = fallbackFilter cexSermons)
     ∧ (∀ c loads, LLMOutcome.raise = LLMOutcome.reply c loads →
          bracketDelimited c = false →
          ∃ out,
            reorderLoop cexSermons
              ((List.range (min 10 cexSermons.length)).map fun n => PyVal.pint n) [] []
              = Except.ok out
            ∧ (RecommendationEngine.rank_sermons id 0 [] "q" cexSermons 1
                 LLMOutcome.raise).1 = out)
     ∧ (∀ c xs out, LLMOutcome.raise = LLMOutcome.reply c (some xs) →
          bracketDelimited c = true →
          reorderLoop cexSermons xs [] [] = Except.ok out →
          (RecommendationEngine.rank_sermons id 0 [] "q" cexSermons 1
             LLMOutcome.raise).1 = out)
     ∧ (∀ (c : String) (ys zs : List PyVal) (n : Int), bracketDelimited c = true →
          ¬ (0 ≤ n ∧ n < (cexSermons.length : Int)) →
          RecommendationEngine.rank_sermons id 0 [] "q" cexSermons 1
              (LLMOutcome.reply c (some (ys ++ PyVal.pint n :: zs)))
            = RecommendationEngine.rank_sermons id 0 [] "q" cexSermons 1
                (LLMOutcome.reply c (some (ys ++ zs))))) :=
  ⟨⟨by decide, by decide⟩,
   rank_sermons_fallback_policy id 0 [] "q" cexSermons 1 LLMOutcome.raise
     (by decide) (Or.inl (by decide))⟩

/-! ### C2 -/

/-- Counterexample to C2 as stated: with a reply not parseable as a
JSON array (`"not json"`), the result *is* written to the cache — the
cache does not stay unchanged as the claim requires. -/
theorem rank_sermons_fallback_cached_cex :
    (RecommendationEngine.rank_sermons id 0 [] "q" cexSermons 1
        (LLMOutcome.reply "not json" none)).2
      = CacheManager.set [] 0 "rank_1_q" cexSermons
    ∧ CacheManager.set [] 0 "rank_1_q" cexSermons ≠ ([] : FS (List Sermon)) := by
  decide

/-- C2 amended: on a cache miss, `rank_sermons` writes its result to
the cache on every non-exception path — including the non-bracketed
reply path — and skips the write exactly on the exception paths, where
the only possible cache change is the lazy eviction performed by the
initial read. -/
theorem rank_sermons_cache_write_policy (md5hex : String → String) (now : Int)
    (fs : FS (List Sermon)) (query : String) (sermons : List Sermon)
    (user_id : Int) (llm : LLMOutcome)
    (hne : sermons ≠ [])
    (hmiss : (CacheManager.get fs now (rankCacheKey md5hex user_id query)).1 = none
           ∨ (CacheManager.get fs now (rankCacheKey md5hex user_id query)).1
               = some ([] : List Sermon)) :
    (rankExceptionPath sermons llm →
      (RecommendationEngine.rank_sermons md5hex now fs query sermons user_id llm).2
        = (CacheManager.get fs now (rankCacheKey md5hex user_id query)).2)
    ∧ (∀ idxs out, rankedIndexes sermons llm = Except.ok idxs →
        reorderLoop sermons idxs [] [] = Except.ok out →
        (RecommendationEngine.rank_sermons md5hex now fs query sermons user_id llm).2
          = CacheManager.set
              (CacheManager.get fs now (rankCacheKey md5hex user_id query)).2
              now (rankCacheKey md5hex user_id query) out) := by
  rw [rank_eq_body md5hex now fs query sermons user_id llm hne hmiss]
  constructor
  · intro hexc
    rw [rankBody_exception _ _ _ _ _ hexc]
  · intro idxs out hi ho
    rw [rankBody_ok _ _ _ _ _ _ _ hi ho]

/-- Witness for C2 (amended) with a successfully parsed reply. -/
theorem rank_sermons_cache_write_policy_witness :
    (cexSermons ≠ []
      ∧ (CacheManager.get ([] : FS (List Sermon)) 0 (rankCacheKey id 1 "q")).1 = none) ∧
    ((rankExceptionPath cexSermons (LLMOutcome.reply "[2, 0]" (some [PyVal.pint 2, PyVal.pint 0])) →
      (RecommendationEngine.rank_sermons id 0 [] "q" cexSermons 1
          (LLMOutcome.reply "[2, 0]" (some [PyVal.pint 2, PyVal.pint 0]))).2
        = (CacheManager.get ([] : FS (List Sermon)) 0 (rankCacheKey id 1 "q")).2)
     ∧ (∀ idxs out,
          rankedIndexes cexSermons (LLMOutcome.reply "[2, 0]" (some [PyVal.pint 2, PyVal.pint 0]))
            = Except.ok idxs →
          reorderLoop cexSermons idxs [] [] = Except.ok out →
          (RecommendationEngine.rank_sermons id 0 [] "q" cexSermons 1
              (LLMOutcome.reply "[2, 0]" (some [PyVal.pint 2, PyVal.pint 0]))).2
            = CacheManager.set
                (CacheManager.get ([] : FS (List Sermon)) 0 (rankCacheKey id 1 "q")).2
                0 (rankCacheKey id 1 "q") out)) :=
  ⟨⟨by decide, by decide⟩,
   rank_sermons_cache_write_policy id 0 [] "q" cexSermons 1
     (LLMOutcome.reply "[2, 0]" (some [PyVal.pint 2, PyVal.pint 0]))
     (by decide) (Or.inl (by decide))⟩

/-! ### C4 -/

/-- Counterexample to C4 as stated: two candidates sharing a
source-link, both above the minimum relevance score, with the model
call raising — the fallback filter keeps both, so the output repeats a
source-link. -/
theorem rank_sermons_duplicate_links_cex :
    (∀ s ∈ (RecommendationEngine.rank_sermons id 0 [] "q" dupSermons 1
        LLMOutcome.raise).1, s ∈ dupSermons)
    ∧ ¬ (((RecommendationEngine.rank_sermons id 0 [] "q" dupSermons 1
        LLMOutcome.raise).1.map Sermon.message_link).Nodup) := by
  decide

/-- C4 amended: on a cache miss the output of `rank_sermons` is always
drawn from the input; the no-duplicate-source-link guarantee holds
unconditionally on the model-ranked path, but on the fallback path only
when the input links are themselves distinct. -/
theorem rank_sermons_output_properties (md5hex : String → String) (now : Int)
    (fs : FS (List Sermon)) (query : String) (sermons : List Sermon)
    (user_id : Int) (llm : LLMOutcome)
    (hne : sermons ≠ [])
    (hmiss : (CacheManager.get fs now (rankCacheKey md5hex user_id query)).1 = none
           ∨ (CacheManager.get fs now (rankCacheKey md5hex user_id query)).1
               = some ([] : List Sermon)) :
    (∀ s ∈ (RecommendationEngine.rank_sermons md5hex now fs query sermons
        user_id llm).1, s ∈ sermons)
    ∧ ((sermons.map Sermon.message_link).Nodup →
        (((RecommendationEngine.rank_sermons md5hex now fs query sermons
            user_id llm).1).map Sermon.message_link).Nodup)
    ∧ (∀ idxs out, rankedIndexes sermons llm = Except.ok idxs →
        reorderLoop sermons idxs [] [] = Except.ok out →
        (out.map Sermon.message_link).Nodup) := by
  rw [rank_eq_body md5hex now fs query sermons user_id llm hne hmiss]
  have hloopnd : ∀ idxs out, reorderLoop sermons idxs [] [] = Except.ok out →
      (out.map Sermon.message_link).Nodup :=
    fun idxs out h =>
      reorderLoop_ok_nodup idxs [] [] out (by simp) (by simp) h
  have hfallsub : ∀ s ∈ fallbackFilter sermons, s ∈ sermons :=
    fun s hs => List.mem_of_mem_filter hs
  have hfallnd : (sermons.map Sermon.message_link).Nodup →
      ((fallbackFilter sermons).map Sermon.message_link).Nodup := by
    intro hin
    exact List.Nodup.sublist ((List.filter_sublist sermons).map _) hin
  refine ⟨?_, ?_, fun idxs out _ ho => hloopnd idxs out ho⟩
  · rcases hi : rankedIndexes sermons llm with e | idxs
    · simp only [rankBody, hi]
      exact hfallsub
    · rcases ho : reorderLoop sermons idxs [] [] with e | out
      · simp only [rankBody, hi, ho]
        exact hfallsub
      · simp only [rankBody, hi, ho]
        intro s hs
        rcases reorderLoop_ok_mem idxs [] [] out ho s hs with h0 | h1
        · exact absurd h0 (List.not_mem_nil s)
        · exact h1
  · intro hin
    rcases hi : rankedIndexes sermons llm with e | idxs
    · simp only [rankBody, hi]
      exact hfallnd hin
    · rcases ho : reorderLoop sermons idxs [] [] with e | out
      · simp only [rankBody, hi, ho]
        exact hfallnd hin
      · simp only [rankBody, hi, ho]
        exact hloopnd idxs out ho

/-- Witness for C4 (amended) on the spec's example list with a decoded
reply containing a duplicate and an out-of-range index. -/
theorem rank_sermons_output_properties_witness :
    (cexSermons ≠ []
      ∧ (CacheManager.get ([] : FS (List Sermon)) 0 (rankCacheKey id 1 "q")).1 = none) ∧
    ((∀ s ∈ (RecommendationEngine.rank_sermons id 0 [] "q" cexSermons 1
        (LLMOutcome.reply "[2, 0, 2, 100]"
          (some [PyVal.pint 2, PyVal.pint 0, PyVal.pint 2, PyVal.pint 100]))).1,
        s ∈ cexSermons)
     ∧ ((cexSermons.map Sermon.message_link).Nodup →
        (((RecommendationEngine.rank_sermons id 0 [] "q" cexSermons 1
            (LLMOutcome.reply "[2, 0, 2, 100]"
              (some [PyVal.pint 2, PyVal.pint 0, PyVal.pint 2, PyVal.pint 100]))).1).map
          Sermon.message_link).Nodup)
     ∧ (∀ idxs out,
          rankedIndexes cexSermons
            (LLMOutcome.reply "[2, 0, 2, 100]"
              (some [PyVal.pint 2, PyVal.pint 0, PyVal.pint 2, PyVal.pint 100]))
            = Except.ok idxs →
          reorderLoop cexSermons idxs [] [] = Except.ok out →
          (out.map Sermon.message_link).Nodup)) :=
  ⟨⟨by decide, by decide⟩,
   rank_sermons_output_properties id 0 [] "q" cexSermons 1
     (LLMOutcome.reply "[2, 0, 2, 100]"
       (some [PyVal.pint 2, PyVal.pint 0, PyVal.pint 2, PyVal.pint 100]))
     (by decide) (Or.inl (by decide))⟩

/-! ### C5 -/

/-- Counterexample to C5 as stated: a non-expired cache entry whose
value is the *empty* list is treated as a miss by `if cached:` —
`rank_sermons` does not return the cached value but recomputes. -/
theorem rank_sermons_cached_empty_cex :
    (CacheManager.get cachedEmptyFs 50 (rankCacheKey id 1 "q")).1
      = some ([] : List Sermon)
    ∧ (RecommendationEngine.rank_sermons id 50 cachedEmptyFs "q" [sermonAt 0] 1
        LLMOutcome.raise).1 ≠ ([] : List Sermon) := by
  decide

/-- C5 amended: for a non-empty candidate list, when the computed key
holds a non-expired cached value that is non-empty (Python truthiness),
`rank_sermons` returns exactly that value, leaves the cache unchanged,
and the result is independent of the model outcome (no invocation). -/
theorem rank_sermons_cache_hit (md5hex : String → String) (now : Int)
    (fs : FS (List Sermon)) (query : String) (sermons : List Sermon)
    (user_id : Int) (llm : LLMOutcome) (l : List Sermon)
    (hne : sermons ≠ [])
    (hhit : (CacheManager.get fs now (rankCacheKey md5hex user_id query)).1 = some l)
    (hl : l ≠ []) :
    RecommendationEngine.rank_sermons md5hex now fs query sermons user_id llm
      = (l, fs) := by
  have hE : sermons.isEmpty = false := by
    cases sermons with
    | nil => exact absurd rfl hne
    | cons a m => rfl
  have hlE : l.isEmpty = false := by
    cases l with
    | nil => exact absurd rfl hl
    | cons a m => rfl
  have h2 := CacheManager.get_snd_of_fst_some hhit
  simp [RecommendationEngine.rank_sermons, hE, hhit, hlE, h2]

/-- Witness for C5 (amended) at a concrete warm cache. -/
theorem rank_sermons_cache_hit_witness :
    ([sermonAt 0] ≠ []
      ∧ (CacheManager.get cachedOneFs 50 (rankCacheKey id 1 "q")).1
          = some [sermonScored 1 (mkRat 1 2)]
      ∧ [sermonScored 1 (mkRat 1 2)] ≠ []) ∧
    RecommendationEngine.rank_sermons id 50 cachedOneFs "q" [sermonAt 0] 1
        LLMOutcome.raise
      = ([sermonScored 1 (mkRat 1 2)], cachedOneFs) :=
  ⟨⟨by decide, by decide, by decide⟩,
   rank_sermons_cache_hit id 50 cachedOneFs "q" [sermonAt 0] 1 LLMOutcome.raise
     [sermonScored 1 (mkRat 1 2)] (by decide) (by decide) (by decide)⟩

/-! ### C7 -/

/-- Counterexample to C7 as stated: a raw distance of 2 (possible for
L2 or cosine distances) yields `similarity_score = 1 - 2`, which is not
in `[0, 1]`; no clamping is applied. -/
theorem search_similarity_out_of_range_cex :
    (RAGEngine.search [(mdEx, (2 : ℚ))]).map Sermon.similarity_score
      = [(1 : ℚ) - 2]
    ∧ ¬ (0 ≤ (1 : ℚ) - 2 ∧ (1 : ℚ) - 2 ≤ 1) := by
  constructor
  · rfl
  · norm_num

/-- C7 amended: every hit produced by `search` carries
`similarity_score = 1 - distance` for its raw distance, and that score
lies in `[0, 1]` exactly when the raw distance lies in `[0, 1]` (no
clamping is performed). -/
theorem search_similarity (results : List (DocMetadata × ℚ)) (hit : Sermon)
    (h : hit ∈ RAGEngine.search results) :
    ∃ p ∈ results, hit = RAGEngine.formatHit p.1 p.2
      ∧ hit.similarity_score = 1 - p.2
      ∧ ((0 ≤ hit.similarity_score ∧ hit.similarity_score ≤ 1)
          ↔ (0 ≤ p.2 ∧ p.2 ≤ 1)) := by
  simp only [RAGEngine.search] at h
  rcases List.mem_map.mp h with ⟨p, hp, rfl⟩
  refine ⟨p, hp, rfl, rfl, ?_⟩
  show (0 ≤ 1 - p.2 ∧ 1 - p.2 ≤ 1) ↔ (0 ≤ p.2 ∧ p.2 ≤ 1)
  constructor <;> rintro ⟨h1, h2⟩ <;> constructor <;> linarith

/-- Witness for C7 (amended) at a concrete retrieval result. -/
theorem search_similarity_witness :
    RAGEngine.formatHit mdEx (mkRat 1 2) ∈ RAGEngine.search [(mdEx, mkRat 1 2)] ∧
    (∃ p ∈ [(mdEx, mkRat 1 2)],
      RAGEngine.formatHit mdEx (mkRat 1 2) = RAGEngine.formatHit p.1 p.2
      ∧ (RAGEngine.formatHit mdEx (mkRat 1 2)).similarity_score = 1 - p.2
      ∧ ((0 ≤ (RAGEngine.formatHit mdEx (mkRat 1 2)).similarity_score
          ∧ (RAGEngine.formatHit mdEx (mkRat 1 2)).similarity_score ≤ 1)
          ↔ (0 ≤ p.2 ∧ p.2 ≤ 1))) :=
  ⟨by simp [RAGEngine.search],
   search_similarity [(mdEx, mkRat 1 2)] (RAGEngine.formatHit mdEx (mkRat 1 2))
     (by simp [RAGEngine.search])⟩

/-! ### C8 -/

theorem filter_link_ne_then_eq (L : String) (X : List SermonRow) :
    ((X.filter fun r => r.message_link ≠ L).filter
        fun r => r.message_link = L) = [] := by
  induction X with
  | nil => rfl
  | cons a X ih => by_cases h : a.message_link = L <;> simp [List.filter_cons, h, ih]

theorem filter_link_ne_idem (L : String) (X : List SermonRow) :
    ((X.filter fun r => r.message_link ≠ L).filter
        fun r => r.message_link ≠ L) = X.filter fun r => r.message_link ≠ L := by
  induction X with
  | nil => rfl
  | cons a X ih => by_cases h : a.message_link = L <;> simp [List.filter_cons, h, ih]

theorem add_sermon_rows (t : SermonTable) (d : SermonInput) :
    (SermonDatabase.add_sermon t d).2.rows
      = (t.rows.filter fun r => r.message_link ≠ d.message_link.getD "")
        ++ [SermonDatabase.rowOf t.nextId d] := rfl

theorem rowOf_message_link (i : Nat) (d : SermonInput) :
    (SermonDatabase.rowOf i d).message_link = d.message_link.getD "" := rfl

/-- C8: inserting two records with the same source-link leaves exactly
one stored row for that link, whose fields are those of the most recent
insert; the second insert does not change the row count; and every
`add_sermon` call preserves the global uniqueness of `message_link`. -/
theorem add_sermon_dedup_by_link (t : SermonTable) (d1 d2 : SermonInput)
    (t' : SermonTable) (d : SermonInput)
    (hlink : d1.message_link = d2.message_link) :
    ((SermonDatabase.add_sermon (SermonDatabase.add_sermon t d1).2 d2).2.rows.filter
        fun r => r.message_link = d2.message_link.getD "")
      = [SermonDatabase.rowOf (SermonDatabase.add_sermon t d1).2.nextId d2]
    ∧ SermonDatabase.get_sermon_count
        (SermonDatabase.add_sermon (SermonDatabase.add_sermon t d1).2 d2).2
      = SermonDatabase.get_sermon_count (SermonDatabase.add_sermon t d1).2
    ∧ ((t'.rows.map SermonRow.message_link).Nodup →
        ((SermonDatabase.add_sermon t' d).2.rows.map SermonRow.message_link).Nodup) := by
  have hL : d1.message_link.getD "" = d2.message_link.getD "" := by rw [hlink]
  refine ⟨?_, ?_, ?_⟩
  · rw [add_sermon_rows, List.filter_append, filter_link_ne_then_eq]
    simp [List.filter_cons, rowOf_message_link]
  · unfold SermonDatabase.get_sermon_count
    rw [add_sermon_rows, add_sermon_rows, List.filter_append, List.length_append,
      List.length_append, hL, filter_link_ne_idem]
    have h1 : ([SermonDatabase.rowOf t.nextId d1].filter
        fun r => r.message_link ≠ d2.message_link.getD "") = [] := by
      simp [List.filter_cons, rowOf_message_link, hL]
    rw [h1]
    simp
  · intro hnd
    rw [add_sermon_rows, List.map_append]
    refine List.nodup_append.mpr ⟨?_, List.nodup_singleton _, ?_⟩
    · exact List.Nodup.sublist ((List.filter_sublist t'.rows).map _) hnd
    · intro a ha hb
      simp only [List.map_cons, List.map_nil, List.mem_singleton,
        rowOf_message_link] at hb
      rcases List.mem_map.mp ha with ⟨r, hr, rfl⟩
      have := List.of_mem_filter hr
      simp at this
      exact this (hb ▸ rfl)

/-- Witness for C8 at a concrete pair of same-link inserts into the
empty table. -/
theorem add_sermon_dedup_by_link_witness :
    ((⟨some "A", none, none, some "L", none, none, none⟩ : SermonInput).message_link
      = (⟨some "B", some "x", none, some "L", none, none, none⟩ : SermonInput).message_link) ∧
    (((SermonDatabase.add_sermon
        (SermonDatabase.add_sermon ⟨0, []⟩ ⟨some "A", none, none, some "L", none, none, none⟩).2
        ⟨some "B", some "x", none, some "L", none, none, none⟩).2.rows.filter
        fun r => r.message_link
          = (⟨some "B", some "x", none, some "L", none, none, none⟩ : SermonInput).message_link.getD "")
      = [SermonDatabase.rowOf
          (SermonDatabase.add_sermon ⟨0, []⟩ ⟨some "A", none, none, some "L", none, none, none⟩).2.nextId
          ⟨some "B", some "x", none, some "L", none, none, none⟩]
    ∧ SermonDatabase.get_sermon_count
        (SermonDatabase.add_sermon
          (SermonDatabase.add_sermon ⟨0, []⟩ ⟨some "A", none, none, some "L", none, none, none⟩).2
          ⟨some "B", some "x", none, some "L", none, none, none⟩).2
      = SermonDatabase.get_sermon_count
          (SermonDatabase.add_sermon ⟨0, []⟩ ⟨some "A", none, none, some "L", none, none, none⟩).2
    ∧ ((((⟨2, [SermonDatabase.rowOf 1 ⟨some "C", none, none, some "M", none, none, none⟩]⟩ : SermonTable).rows.map
          SermonRow.message_link).Nodup →
        ((SermonDatabase.add_sermon
            ⟨2, [SermonDatabase.rowOf 1 ⟨some "C", none, none, some "M", none, none, none⟩]⟩
            ⟨some "D", none, none, some "M", none, none, none⟩).2.rows.map
          SermonRow.message_link).Nodup))) :=
  ⟨rfl,
   add_sermon_dedup_by_link ⟨0, []⟩
     ⟨some "A", none, none, some "L", none, none, none⟩
     ⟨some "B", some "x", none, some "L", none, none, none⟩
     ⟨2, [SermonDatabase.rowOf 1 ⟨some "C", none, none, some "M", none, none, none⟩]⟩
     ⟨some "D", none, none, some "M", none, none, none⟩
     rfl⟩
